import Mathlib

/-!
Verification development for the xenRAG retrieval pipeline.

This file gives a shallow embedding of the core of the repository:
the hybrid retrieval engine (`src/xenrag/retrieval/engine.py` and the two
store adapters), the LangGraph conversation state and its patch semantics
(`src/xenrag/graph/state.py`, `src/xenrag/graph/graph.py`), the pipeline
stage functions (`src/xenrag/graph/nodes/*.py`), and the LLM load balancer
(`src/xenrag/llm/load_balancer.py`).

Modelling conventions:
- Python floats (relevance scores, confidences) are modelled as rationals.
  Non-integer literals are written with `mkRat` so that they evaluate in
  the kernel.
- Python dicts with string keys are modelled as association lists.
- Network calls (store queries, LLM invocations) are modelled as explicit
  `Except`-valued outcome parameters: `.ok v` is a normal return, `.error e`
  is a raised exception carrying its message.
- Python string operations (`strip`, `lower`, substring test, slicing) are
  re-implemented over `List Char` so that they reduce in the kernel; the
  exact text of log-style summary strings is modelled faithfully except for
  quote characters, which are omitted.
-/

namespace XenRag

instance {ε α : Type} [DecidableEq ε] [DecidableEq α] : DecidableEq (Except ε α) := fun a b =>
  match a, b with
  | .ok x, .ok y => if h : x = y then .isTrue (by rw [h]) else .isFalse (by simp [h])
  | .error x, .error y => if h : x = y then .isTrue (by rw [h]) else .isFalse (by simp [h])
  | .ok _, .error _ => .isFalse (by simp)
  | .error _, .ok _ => .isFalse (by simp)

/-! ## Python string helpers (kernel-computable remodellings) -/

/-- Containment of `needle` as a contiguous substring of `haystack`,
over character lists (models Python `needle in haystack`). -/
def lcContains : List Char → List Char → Bool
  | [], needle => needle.isEmpty
  | h :: t, needle => needle.isPrefixOf (h :: t) || lcContains t needle

/-- Python `sub in s` on strings. -/
def strContains (s sub : String) : Bool := lcContains s.data sub.data

/-- Python `s.lower()`. -/
def pyLower (s : String) : String := ⟨s.data.map Char.toLower⟩

/-- Python `s.strip()`: drop leading and trailing whitespace. -/
def pyStrip (s : String) : String :=
  ⟨((s.data.dropWhile Char.isWhitespace).reverse.dropWhile Char.isWhitespace).reverse⟩

/-- Python `s.startswith(p)`. -/
def pyStartsWith (s p : String) : Bool := p.data.isPrefixOf s.data

/-- Python `s.endswith(p)`. -/
def pyEndsWith (s p : String) : Bool := p.data.reverse.isPrefixOf s.data.reverse

/-- Python slicing `s[a:len(s)-b]` (drop `a` chars at the front and `b` at the back). -/
def pySlice (s : String) (a b : Nat) : String := ⟨(s.data.drop a).reverse.drop b |>.reverse⟩

/-- Minimum of two rationals, as Python `min` on two floats. -/
def ratMin (a b : ℚ) : ℚ := if a ≤ b then a else b

/-! ## Retrieval data model — `src/xenrag/retrieval/types.py` -/

/-- RetrievalItem from `retrieval/types.py`: a single retrieved document or
graph node. `metadata` (a Python dict) is an association list. -/
structure RetrievalItem where
  id : String
  content : String
  source : String
  score : ℚ
  metadata : List (String × String)
deriving DecidableEq, Repr

/-- The debug_info dict built by `RagEngine.search`
(`engine.py` lines 51-54): it holds exactly the two result counts. -/
structure DebugInfo where
  vector_count : Nat
  graph_count : Nat
deriving DecidableEq, Repr

/-- RetrievalResponse from `retrieval/types.py`. -/
structure RetrievalResponse where
  items : List RetrievalItem
  total_found : Nat
  strategy_used : String
  debug_info : DebugInfo
deriving DecidableEq, Repr

/-! ## Merge algorithm — `RagEngine._merge_results` (`engine.py` 57-65)

The Python code is `combined = vector_hits + graph_hits` followed by
`combined.sort(key=lambda x: x.score, reverse=True)`. Python `list.sort`
is a stable sort, and with `reverse=True` ties keep their original order.
We model it with a stable insertion sort for descending score. -/

/-- Stable descending insertion: `x` is placed before the first element whose
score is not strictly greater, so an element inserted from an earlier
position of the original list stays before later elements of equal score. -/
def insertDesc (x : RetrievalItem) : List RetrievalItem → List RetrievalItem
  | [] => [x]
  | y :: l => if y.score > x.score then y :: insertDesc x l else x :: y :: l

/-- Stable sort by score descending (models `combined.sort(key=..., reverse=True)`). -/
def sortByScoreDesc : List RetrievalItem → List RetrievalItem
  | [] => []
  | x :: l => insertDesc x (sortByScoreDesc l)

/-- `RagEngine._merge_results`: concatenate vector hits and graph hits,
then stable-sort the combined list by score descending. -/
def mergeResults (vector_hits graph_hits : List RetrievalItem) : List RetrievalItem :=
  sortByScoreDesc (vector_hits ++ graph_hits)

/-! ## Store adapters — `retrieval/stores/qdrant.py`, `retrieval/stores/neo4j.py` -/

/-- A raw Qdrant point as consumed by `QdrantVectorStore.search`
(`qdrant.py` 92-105): an id, a score and a payload dict. -/
structure RawHit where
  id : String
  score : ℚ
  payload : List (String × String)
deriving DecidableEq, Repr

/-- `QdrantVectorStore.search` (`qdrant.py` 65-108): on success each hit is
converted to a `RetrievalItem` with `source := "qdrant"` and
`content := payload.get("text", "")`; ANY exception is caught and the
method returns the empty list. -/
def qdrantSearch (outcome : Except String (List RawHit)) : List RetrievalItem :=
  match outcome with
  | .ok hits => hits.map fun h =>
      { id := h.id, content := ((h.payload.lookup "text").getD ""),
        source := "qdrant", score := h.score, metadata := h.payload }
  | .error _ => []

/-- A Neo4j result record's data dict (`record.data()` in `neo4j.py`). -/
abbrev Neo4jRecord : Type := List (String × String)

/-- Rendering of `str(record.data())` used for `content` in `neo4j.py` line 44
(the exact Python repr format is not load-bearing; we keep it injective
enough by joining the key-value pairs). -/
def recordContent (d : Neo4jRecord) : String :=
  String.intercalate ", " ((d : List (String × String)).map fun p => p.1 ++ ": " ++ p.2)

/-- `Neo4jGraphStore.query` as called from `get_context` (`neo4j.py` 35-70):
on success every record becomes a `RetrievalItem` with the fixed id
`"neo4j_res"`, `source := "neo4j"` and pseudo-score `1.0`; any
`Neo4jError` or other exception is caught and the empty list returned. -/
def neo4jGetContext (outcome : Except String (List Neo4jRecord)) : List RetrievalItem :=
  match outcome with
  | .ok records => records.map fun r =>
      { id := "neo4j_res", content := recordContent r,
        source := "neo4j", score := 1, metadata := r }
  | .error _ => []

/-! ## `RagEngine.search` — `engine.py` 16-55

The two sub-searches of the `HYBRID` strategy run concurrently via
`asyncio.gather`; concurrency does not affect the returned value, so the
model takes the two outcomes as parameters. -/

/-- `RagEngine.search`: dispatch on strategy, merge, and build the response.
For `VECTOR_ONLY` only the vector store is queried; for `HYBRID` both; for
any other strategy string both result lists stay empty (the Python code has
no else branch). -/
def ragEngineSearch (strategy : String)
    (vecOutcome : Except String (List RawHit))
    (graphOutcome : Except String (List Neo4jRecord)) : RetrievalResponse :=
  let vector_results := if strategy = "VECTOR_ONLY" then qdrantSearch vecOutcome
    else if strategy = "HYBRID" then qdrantSearch vecOutcome else []
  let graph_results := if strategy = "HYBRID" then neo4jGetContext graphOutcome else []
  let merged := mergeResults vector_results graph_results
  { items := merged, total_found := merged.length, strategy_used := strategy,
    debug_info := { vector_count := vector_results.length, graph_count := graph_results.length } }

/-! ## Conversation state — `src/xenrag/graph/state.py` -/

/-- Intent from `state.py`. -/
structure Intent where
  type : String
  confidence : ℚ
deriving DecidableEq, Repr

/-- Emotion from `state.py`. -/
structure Emotion where
  type : String
  confidence : ℚ
deriving DecidableEq, Repr

/-- ReasoningRecord from `state.py`: one internal reasoning-trace entry. -/
structure ReasoningRecord where
  step : String
  summary : String
  confidence : ℚ
deriving DecidableEq, Repr

/-- Explanation from `state.py`. -/
structure Explanation where
  reasoning_type : String
  evidence_ids : List String
  confidence : ℚ
  limitations : Option String
deriving DecidableEq, Repr

/-- RetrievalContext from `state.py` (the per-query container built by the
query node). -/
structure RetrievalContext where
  vector_results : List RetrievalItem
  kg_results : List RetrievalItem
  merged_results : List RetrievalItem
  retrieval_confidence : ℚ
deriving DecidableEq, Repr

/-- GraphState from `state.py` lines 56-77. These are exactly the declared
pydantic fields — the LangGraph channels of the state. Note that only
`messages` is annotated with the `operator.add` reducer; every other field,
including `private_reasoning`, is a plain field (a last-value channel).
`messages` holds `BaseMessage` values, modelled as strings. -/
structure GraphState where
  input_query : String
  messages : List String
  intent : Option Intent
  emotion : Option Emotion
  retrieval_context : Option RetrievalContext
  is_sufficient : Bool
  needs_clarification : Bool
  generated_answer : Option String
  explanations : List Explanation
  private_reasoning : List ReasoningRecord
deriving DecidableEq, Repr

/-- The initial state for one query: `input_query` set, every other field at
its pydantic default (`cli.py` invokes the graph with only `input_query`). -/
def initialState (q : String) : GraphState :=
  { input_query := q, messages := [], intent := none, emotion := none,
    retrieval_context := none, is_sufficient := false,
    needs_clarification := false, generated_answer := none,
    explanations := [], private_reasoning := [] }

/-- A node's returned update dict. A field holds `none` when the node's dict
does not contain that key and `some v` when it maps the key to `v`.
`retrieval_context` is doubly optional because the query node's error path
explicitly writes the value `None`. The last two fields model the
`clarification_message` / `clarification_reason` keys written by
`clarification_node` — keys that do NOT correspond to any declared field of
`GraphState`. -/
structure StatePatch where
  messages : Option (List String) := none
  intent : Option Intent := none
  emotion : Option Emotion := none
  retrieval_context : Option (Option RetrievalContext) := none
  is_sufficient : Option Bool := none
  needs_clarification : Option Bool := none
  generated_answer : Option String := none
  explanations : Option (List Explanation) := none
  private_reasoning : Option (List ReasoningRecord) := none
  clarification_message : Option String := none
  clarification_reason : Option String := none
deriving DecidableEq, Repr

/-- LangGraph's application of a node's returned dict to the state, with the
channels generated from the `GraphState` schema: the `messages` channel has
the `operator.add` reducer (`state.py` line 62), so an update is appended;
every other declared field is a last-value channel, so an update REPLACES
the current value; keys that are not declared fields of the schema
(`clarification_message`, `clarification_reason`) have no channel and are
dropped. -/
def applyPatch (s : GraphState) (p : StatePatch) : GraphState :=
  { input_query := s.input_query,
    messages := s.messages ++ p.messages.getD [],
    intent := match p.intent with | none => s.intent | some v => some v,
    emotion := match p.emotion with | none => s.emotion | some v => some v,
    retrieval_context :=
      match p.retrieval_context with | none => s.retrieval_context | some v => v,
    is_sufficient := p.is_sufficient.getD s.is_sufficient,
    needs_clarification := p.needs_clarification.getD s.needs_clarification,
    generated_answer :=
      match p.generated_answer with | none => s.generated_answer | some v => some v,
    explanations := p.explanations.getD s.explanations,
    private_reasoning := p.private_reasoning.getD s.private_reasoning }

/-! ## Interpreter node — `graph/nodes/interpreter.py` -/

/-- The parsed classification extracted from the interpreter LLM output
(after the `.get` defaults of `interpreter.py` 84-97 have been applied). -/
structure InterpreterOutput where
  intent_type : String
  intent_confidence : ℚ
  emotion_type : String
  emotion_confidence : ℚ
  reasoning : String
deriving DecidableEq, Repr

/-- `interpreter_node` (`interpreter.py` 31-131): classify intent and emotion.
On success the record confidence is `min` of the two confidences; on any
exception (LLM failure or JSON extraction failure) the fallback intent
`unknown`/`0` and emotion `neutral`/`0` are produced with a zero-confidence
record. -/
def interpreterNode (llm : Except String InterpreterOutput) : StatePatch :=
  match llm with
  | .ok o =>
      { intent := some { type := o.intent_type, confidence := o.intent_confidence },
        emotion := some { type := o.emotion_type, confidence := o.emotion_confidence },
        private_reasoning := some [
          { step := "interpreter",
            summary := "Classified intent as " ++ o.intent_type ++ " and emotion as "
              ++ o.emotion_type ++ ". Reasoning: " ++ o.reasoning,
            confidence := ratMin o.intent_confidence o.emotion_confidence }] }
  | .error e =>
      { intent := some { type := "unknown", confidence := 0 },
        emotion := some { type := "neutral", confidence := 0 },
        private_reasoning := some [
          { step := "interpreter",
            summary := "Failed to classify. Error: " ++ e,
            confidence := 0 }] }

/-! ## Query node — `graph/nodes/query.py` -/

/-- Strategy decision of `query_node` (`query.py` 16-27): returns the strategy
and the reasoning summary it logs. -/
def queryStrategy (intent : Option Intent) : String × String :=
  match intent with
  | none => ("HYBRID", "Using default HYBRID strategy.")
  | some it =>
      if it.type = "specific_question" ∨ it.type = "feature_request" then
        ("VECTOR_ONLY", "Intent " ++ it.type ++ " detected. Using VECTOR_ONLY for precision.")
      else if it.type = "complaint_analysis" ∨ it.type = "summary_request" then
        ("HYBRID", "Intent " ++ it.type ++ " detected. Using HYBRID for coverage.")
      else ("HYBRID", "Using default HYBRID strategy.")

/-- `convert_items`'s per-item conversion (`query.py` 44-53): rebuilds the
item with `str(item.id)` and stringified metadata; on this model both are
already strings, so every field is copied unchanged. -/
def convertItem (i : RetrievalItem) : RetrievalItem :=
  { id := i.id, content := i.content, source := i.source,
    score := i.score, metadata := i.metadata }

/-- `convert_items` over a list. -/
def convertItems (l : List RetrievalItem) : List RetrievalItem := l.map convertItem

/-- The `RetrievalContext` built by `query_node` (`query.py` 55-63): the
response items are partitioned by their source tag into the two per-source
lists, the merged list is kept whole, and the retrieval confidence is the
HARD-CODED constant `0.8` (line 62, `TODO: Compute from scores`). -/
def queryNodeContext (response : RetrievalResponse) : RetrievalContext :=
  { vector_results := convertItems (response.items.filter fun i => i.source == "qdrant"),
    kg_results := convertItems (response.items.filter fun i => i.source == "neo4j"),
    merged_results := convertItems response.items,
    retrieval_confidence := mkRat 8 10 }

/-- `query_node` (`query.py` 10-88). `engineFailure` models an exception
raised inside the `try` block by something other than the store adapters
(which catch their own errors); in that case the node writes
`retrieval_context = None` and a zero-confidence record. -/
def queryNode (state : GraphState)
    (vecOutcome : Except String (List RawHit))
    (graphOutcome : Except String (List Neo4jRecord))
    (engineFailure : Option String) : StatePatch :=
  let sr := queryStrategy state.intent
  match engineFailure with
  | some e =>
      { retrieval_context := some none,
        private_reasoning := some [
          { step := "Query", summary := "Retrieval failed: " ++ e, confidence := 0 }] }
  | none =>
      let response := ragEngineSearch sr.1 vecOutcome graphOutcome
      { retrieval_context := some (some (queryNodeContext response)),
        private_reasoning := some [
          { step := "Query",
            summary := sr.2 ++ " Found " ++ toString response.total_found ++ " items.",
            confidence := 1 }] }

/-! ## Reason node — `graph/nodes/reasoning.py` -/

/-- The structured sufficiency verdict (`SufficiencyOutput` pydantic model in
`reasoning.py` 14-18). -/
structure SufficiencyOutput where
  is_sufficient : Bool
  confidence : ℚ
  missing_information : String
  reasoning : String
deriving DecidableEq, Repr

/-- `reasoning_node` (`reasoning.py` 21-118). The `llm` parameter is the
combined outcome of the chain invocation AND the structured parse: a raised
LLM call, an unparseable response or a validation failure all land in
`.error`. Returns the patch together with a Boolean recording whether the
LLM judge was invoked (`false` exactly on the early empty-context return of
lines 35-47, which precedes the chain construction). -/
def reasoningNode (state : GraphState)
    (llm : Except String SufficiencyOutput) : StatePatch × Bool :=
  let emptyReturn : StatePatch :=
    { is_sufficient := some false,
      needs_clarification := some true,
      private_reasoning := some [
        { step := "Reasoner",
          summary := "No documents retrieved. Cannot evaluate sufficiency.",
          confidence := 1 }] }
  match state.retrieval_context with
  | none => (emptyReturn, false)
  | some context =>
      if context.merged_results.isEmpty then (emptyReturn, false)
      else
        match llm with
        | .ok output =>
            ({ is_sufficient := some output.is_sufficient,
               needs_clarification := some (!output.is_sufficient),
               private_reasoning := some [
                 { step := "Reasoner",
                   summary := if !output.is_sufficient then
                       output.reasoning ++ ". Missing: " ++ output.missing_information
                     else output.reasoning,
                   confidence := output.confidence }] }, true)
        | .error e =>
            ({ is_sufficient := some false,
               needs_clarification := some true,
               private_reasoning := some [
                 { step := "Reasoner",
                   summary := "Error during evaluation: " ++ e,
                   confidence := 0 }] }, true)

/-! ## GenerateAnswer node — `graph/nodes/generate_answer.py` -/

/-- Tone selection of `generate_answer_node` (`generate_answer.py` 32-43):
returns the tone name used in the reasoning summary. -/
def toneName (emotion : Option Emotion) : String :=
  match emotion with
  | none => "neutral"
  | some e =>
      if e.type = "frustrated" then "empathetic"
      else if e.type = "happy" then "enthusiastic"
      else if e.type = "confused" then "clear"
      else "neutral"

/-- Answer post-processing of `generate_answer.py` 73-78: strip whitespace,
then a surrounding code fence, then surrounding quotes. -/
def cleanAnswer (content : String) : String :=
  let a := pyStrip content
  let a := if pyStartsWith a "```" && pyEndsWith a "```" then pyStrip (pySlice a 3 3) else a
  if pyStartsWith a "\"" && pyEndsWith a "\"" then pySlice a 1 1 else a

/-- `generate_answer_node` (`generate_answer.py` 13-121). `llm` is the main
chain outcome; `fallbackLLM` is the outcome of the simplified retry issued
only when the main call raises. If both raise, a deterministic degraded
answer referencing the retrieved-document count is produced with a
zero-confidence record. -/
def generateAnswerNode (state : GraphState)
    (llm fallbackLLM : Except String String) : StatePatch :=
  let emotionName := match state.emotion with | some e => e.type | none => "neutral"
  let docCount := match state.retrieval_context with
    | some c => c.merged_results.length
    | none => 0
  match llm with
  | .ok content =>
      { generated_answer := some (cleanAnswer content),
        private_reasoning := some [
          { step := "GenerateAnswer",
            summary := "Generated response using " ++ toneName state.emotion
              ++ " tone based on " ++ emotionName ++ " emotion.",
            confidence := 1 }] }
  | .error e =>
      match fallbackLLM with
      | .ok content =>
          { generated_answer := some (pyStrip content),
            private_reasoning := some [
              { step := "GenerateAnswer",
                summary := "Used fallback simple generation.",
                confidence := mkRat 7 10 }] }
      | .error e2 =>
          { generated_answer := some
              ("Based on the available customer reviews, I found some relevant information but encountered an issue formatting the response. The context contains "
                ++ toString docCount ++ " relevant documents."),
            private_reasoning := some [
              { step := "GenerateAnswer",
                summary := "Error during generation: " ++ e ++ ". Fallback also failed: " ++ e2,
                confidence := 0 }] }

/-! ## BuildExplanation node — `graph/nodes/explanation.py` -/

/-- The parsed explanation verdict after the `.get` defaults of
`explanation.py` 89-93 have been applied. -/
structure ExplanationOutput where
  reasoning_type : String
  confidence : ℚ
  summary : String
  limitations : String
deriving DecidableEq, Repr

/-- Source ids computed by `explanation.py` 38-45: `item.id or "doc_{i}"`. -/
def explanationSourceIds (context : Option RetrievalContext) : List String :=
  match context with
  | none => []
  | some c => c.merged_results.enum.map fun p =>
      if p.2.id = "" then "doc_" ++ toString p.1 else p.2.id

/-- `explanation_node` (`explanation.py` 14-140). `llm` is the chain outcome;
`.ok (some o)` is a successful call whose output parsed, `.ok none` a
successful call whose output `parse_json_safe` could not parse (fallback
values are used), `.error` a raised call (fixed default Explanation with
confidence 0.6). -/
def explanationNode (state : GraphState)
    (llm : Except String (Option ExplanationOutput)) : StatePatch :=
  match state.generated_answer with
  | none =>
      { explanations := some [],
        private_reasoning := some [
          { step := "BuildExplanation",
            summary := "No answer available to build explanation.",
            confidence := 0 }] }
  | some _ =>
      let source_ids := explanationSourceIds state.retrieval_context
      match llm with
      | .ok parsed =>
          let o : ExplanationOutput := match parsed with
            | some o => o
            | none =>
                { reasoning_type := "synthesis", confidence := mkRat 7 10,
                  summary := "Answer synthesized from customer reviews.",
                  limitations := "Unable to generate detailed explanation." }
          { explanations := some [
              { reasoning_type := o.reasoning_type,
                evidence_ids := source_ids.take 5,
                confidence := o.confidence,
                limitations := some o.limitations }],
            private_reasoning := some [
              { step := "BuildExplanation",
                summary := "Reasoning: " ++ o.reasoning_type ++ ". " ++ o.summary
                  ++ ". Limitations: " ++ o.limitations,
                confidence := o.confidence }] }
      | .error e =>
          { explanations := some [
              { reasoning_type := "synthesis",
                evidence_ids := source_ids.take 5,
                confidence := mkRat 6 10,
                limitations := some "Explanation generated from available context." }],
            private_reasoning := some [
              { step := "BuildExplanation",
                summary := "Generated fallback explanation. Error: " ++ e,
                confidence := mkRat 6 10 }] }

/-! ## AskClarification node — `graph/nodes/clarification.py` -/

/-- The missing-context scan of `clarification.py` 25-31: walk the
accumulated reasoning records from the most recent backwards and take the
first non-empty summary containing the word "missing" (case-insensitive);
otherwise a fixed default. -/
def clarifyMissingContext (records : List ReasoningRecord) : String :=
  match records.reverse.find? (fun r =>
      !(r.summary == "") && strContains (pyLower r.summary) "missing") with
  | some r => r.summary
  | none => "The retrieved information does not contain sufficient details to answer the question."

/-- The deterministic fallback clarification message of
`clarification.py` 99-102 (guaranteed non-empty; apostrophes of the
original text omitted). -/
def fallbackClarificationMessage (numDocs : Nat) : String :=
  "I found " ++ toString numDocs
    ++ " related reviews, but I need a bit more context to give you a helpful answer. Could you please:\n\n"
    ++ "- Be more specific about what aspect you are interested in?\n"
    ++ "- Mention any particular product or feature?\n"
    ++ "- Tell me what kind of information would be most helpful?"

/-- `clarification_node` (`clarification.py` 13-115). Note that BOTH return
paths write the keys `clarification_message` and `clarification_reason`,
which are not declared fields of `GraphState`. -/
def clarificationNode (state : GraphState)
    (llm : Except String String) : StatePatch :=
  let missing_context := clarifyMissingContext state.private_reasoning
  let num_docs := match state.retrieval_context with
    | some c => c.merged_results.length
    | none => 0
  match llm with
  | .ok content =>
      let m := pyStrip content
      let m := if pyStartsWith m "\"" && pyEndsWith m "\"" then pySlice m 1 1 else m
      { clarification_message := some m,
        clarification_reason := some missing_context,
        needs_clarification := some true,
        private_reasoning := some [
          { step := "AskClarification",
            summary := "Requested clarification due to insufficient evidence. Found "
              ++ toString num_docs ++ " docs but none directly address the question.",
            confidence := 1 }] }
  | .error e =>
      { clarification_message := some (fallbackClarificationMessage num_docs),
        clarification_reason := some "Insufficient context to generate accurate response",
        needs_clarification := some true,
        private_reasoning := some [
          { step := "AskClarification",
            summary := "Used fallback clarification. Error: " ++ e,
            confidence := mkRat 1 2 }] }

/-! ## Orchestrator — `graph/graph.py` -/

/-- `should_generate_or_clarify` (`graph.py` 15-26). -/
def shouldGenerateOrClarify (state : GraphState) : String :=
  if state.is_sufficient then "generate_answer" else "ask_clarification"

/-- The external outcomes one pipeline run consumes, bundled: each field is
the result of the corresponding network interaction, in the order the
stages would perform them. -/
structure PipelineOracle where
  interp : Except String InterpreterOutput
  vec : Except String (List RawHit)
  graph : Except String (List Neo4jRecord)
  engineFailure : Option String
  suff : Except String SufficiencyOutput
  gen : Except String String
  genFallback : Except String String
  expl : Except String (Option ExplanationOutput)
  clar : Except String String
deriving Repr

/-- One full run of the compiled graph of `build_graph` (`graph.py` 29-67):
`START → interpreter → query → reasoner →` conditional branch on
`should_generate_or_clarify` `→ {generate_answer → build_explanation | ask_clarification} → END`,
each node's returned dict applied to the state by the LangGraph channel
semantics of `applyPatch`. -/
def runPipeline (q : String) (o : PipelineOracle) : GraphState :=
  let s0 := initialState q
  let s1 := applyPatch s0 (interpreterNode o.interp)
  let s2 := applyPatch s1 (queryNode s1 o.vec o.graph o.engineFailure)
  let s3 := applyPatch s2 (reasoningNode s2 o.suff).1
  if shouldGenerateOrClarify s3 = "generate_answer" then
    let s4 := applyPatch s3 (generateAnswerNode s3 o.gen o.genFallback)
    applyPatch s4 (explanationNode s4 o.expl)
  else
    applyPatch s3 (clarificationNode s3 o.clar)

/-! ## LLM load balancer — `src/xenrag/llm/load_balancer.py` -/

/-- `LoadBalanceStrategy` (`load_balancer.py` 14-18). -/
inductive LoadBalanceStrategy where
  | round_robin
  | least_connections
  | random
  | failover
deriving DecidableEq, Repr

/-- One registered backend as the balancer sees it (`llm/base.py` state used
by `load_balancer.py`): its name, health flag and request counter, plus the
outcome its `generate` call would produce. Because `execute` never calls
the same backend twice within one call (proved below), one outcome per
backend per call is a faithful model. Backends are assumed to carry
distinct names. -/
structure LLMClient where
  name : String
  is_healthy : Bool
  request_count : Nat
  gen : Except String String
deriving DecidableEq, Repr

/-- `get_healthy_clients` (`load_balancer.py` 33-35). -/
def getHealthyClients (clients : List LLMClient) : List LLMClient :=
  clients.filter (·.is_healthy)

/-- Python `min(healthy, key=lambda c: c.request_count)`: the FIRST element
with the minimal request counter. -/
def minByRequestCount (c : LLMClient) : List LLMClient → LLMClient
  | [] => c
  | d :: l => if d.request_count < c.request_count then minByRequestCount d l
      else minByRequestCount c l

/-- The candidate list of `select_client` (`load_balancer.py` 39-44):
the healthy clients, or — fallback — ALL registered clients when no client
is healthy. -/
def lbCandidates (clients : List LLMClient) : List LLMClient :=
  if (getHealthyClients clients).isEmpty then clients else getHealthyClients clients

/-- `select_client` (`load_balancer.py` 37-64): pick from the candidate
list according to the strategy; return `none` only when even the fallback
candidate list is empty. `rr` is the balancer's `_rr_index` (returned
updated, since ROUND_ROBIN increments it) and `rnd` models the
`random.choice` draw as an arbitrary natural reduced modulo the candidate
count. `LEAST_CONNECTIONS` is Python `min` by request counter (first
minimum); `FAILOVER` is the first candidate in priority order. -/
def selectClient (strategy : LoadBalanceStrategy) (clients : List LLMClient)
    (rr rnd : Nat) : Option (LLMClient × Nat) :=
  let healthy := lbCandidates clients
  if h : healthy.length = 0 then none
  else
    have hpos : 0 < healthy.length := Nat.pos_of_ne_zero h
    match strategy with
    | .round_robin => some (healthy.get ⟨rr % healthy.length, Nat.mod_lt _ hpos⟩, rr + 1)
    | .least_connections =>
        some (minByRequestCount (healthy.get ⟨0, hpos⟩) (healthy.drop 1), rr)
    | .random => some (healthy.get ⟨rnd % healthy.length, Nat.mod_lt _ hpos⟩, rr)
    | .failover => some (healthy.get ⟨0, hpos⟩, rr)

/-- `client.mark_unhealthy()` (`load_balancer.py` line 103): clear the health
flag of the failed client, identified by name. -/
def markUnhealthy (clients : List LLMClient) (n : String) : List LLMClient :=
  clients.map fun c => if c.name == n then { c with is_healthy := false } else c

/-- The outcome of one `execute` call. The Python code raises
`RuntimeError("No LLM clients available")` when selection returns nothing
and `RuntimeError("All LLM attempts failed. ...")` when the attempt loop
finishes without a success; the latter is the exhaustion error the spec
calls `BackendExhausted` (no exception class of that name exists in the
source). -/
inductive ExecResult where
  | success (name response : String)
  | noClients
  | exhausted
deriving DecidableEq, Repr

/-- The already-tried check of `execute` (`load_balancer.py` 85-91): if the
selected client was already tried in this call, re-target the first
registered client not yet tried; `none` means no untried client remains
(the loop breaks). -/
def retarget (clients : List LLMClient) (tried : List String)
    (c0 : LLMClient) : Option LLMClient :=
  if tried.contains c0.name then clients.find? (fun c => !tried.contains c.name)
  else some c0

/-- The `for attempt in range(retries + 1)` loop of `execute`
(`load_balancer.py` 76-105). `fuel` is the number of loop iterations left;
`tried` is `tried_clients`, kept as a list in insertion order so that it
doubles as the trace of attempted backends. Per iteration: select a client;
if it was already tried, re-target the first untried registered client, or
break (→ exhausted) if none remains; record the client as tried; on a
successful generate return it, on an exception mark it unhealthy and
continue. -/
def executeLoop (strategy : LoadBalanceStrategy) :
    Nat → List LLMClient → Nat → Nat → List String → List String × ExecResult
  | 0, _, _, _, tried => (tried, .exhausted)
  | fuel + 1, clients, rr, rnd, tried =>
      match selectClient strategy clients rr rnd with
      | none => (tried, .noClients)
      | some (c0, rr2) =>
          match retarget clients tried c0 with
          | none => (tried, .exhausted)
          | some c =>
              match c.gen with
              | .ok resp => (tried ++ [c.name], .success c.name resp)
              | .error _ =>
                  executeLoop strategy fuel (markUnhealthy clients c.name) rr2
                    (rnd + 1) (tried ++ [c.name])

/-- `execute(prompt, retries=r)` (`load_balancer.py` 66-105): run the attempt
loop `retries + 1` times starting from an empty tried set. Returns the
ordered list of attempted backend names together with the outcome. -/
def execute (strategy : LoadBalanceStrategy) (clients : List LLMClient)
    (retries rr rnd : Nat) : List String × ExecResult :=
  executeLoop strategy (retries + 1) clients rr rnd []

/-! # Helper lemmas -/

lemma insertDesc_perm (x : RetrievalItem) (l : List RetrievalItem) :
    (insertDesc x l).Perm (x :: l) := by
  induction l with
  | nil => simp [insertDesc]
  | cons y t ih =>
      simp only [insertDesc]
      split
      · exact (ih.cons y).trans (List.Perm.swap x y t)
      · exact List.Perm.refl _

lemma sortByScoreDesc_perm (l : List RetrievalItem) :
    (sortByScoreDesc l).Perm l := by
  induction l with
  | nil => simp [sortByScoreDesc]
  | cons x t ih => exact (insertDesc_perm x (sortByScoreDesc t)).trans (ih.cons x)

lemma mem_insertDesc {a x : RetrievalItem} {l : List RetrievalItem} :
    a ∈ insertDesc x l ↔ a = x ∨ a ∈ l := by
  rw [(insertDesc_perm x l).mem_iff, List.mem_cons]

lemma insertDesc_pairwise {x : RetrievalItem} {l : List RetrievalItem}
    (h : l.Pairwise (fun a b => b.score ≤ a.score)) :
    (insertDesc x l).Pairwise (fun a b => b.score ≤ a.score) := by
  induction l with
  | nil => simp [insertDesc]
  | cons y t ih =>
      rw [List.pairwise_cons] at h
      obtain ⟨hy, ht⟩ := h
      simp only [insertDesc]
      split
      case isTrue hgt =>
        rw [List.pairwise_cons]
        refine ⟨fun a ha => ?_, ih ht⟩
        rcases mem_insertDesc.mp ha with rfl | ha
        · exact le_of_lt hgt
        · exact hy a ha
      case isFalse hle =>
        rw [List.pairwise_cons]
        refine ⟨fun a ha => ?_, List.pairwise_cons.mpr ⟨hy, ht⟩⟩
        rcases List.mem_cons.mp ha with rfl | ha
        · exact not_lt.mp hle
        · exact le_trans (hy a ha) (not_lt.mp hle)

lemma sortByScoreDesc_pairwise (l : List RetrievalItem) :
    (sortByScoreDesc l).Pairwise (fun a b => b.score ≤ a.score) := by
  induction l with
  | nil => simp [sortByScoreDesc]
  | cons x t ih => exact insertDesc_pairwise ih

lemma filter_insertDesc (s : ℚ) (x : RetrievalItem) (l : List RetrievalItem) :
    (insertDesc x l).filter (fun a => decide (a.score = s))
      = (x :: l).filter (fun a => decide (a.score = s)) := by
  induction l with
  | nil => rfl
  | cons y t ih =>
      simp only [insertDesc]
      split
      case isTrue hgt =>
        by_cases hx : x.score = s
        · have hy : ¬ (y.score = s) := by
            intro hys
            have hlt : s < y.score := hx ▸ hgt
            exact absurd (hys ▸ hlt) (lt_irrefl s)
          simp [List.filter_cons, hx, hy, ih]
        · simp [List.filter_cons, hx, ih]
      case isFalse hle => rfl

lemma sortByScoreDesc_filter (s : ℚ) (l : List RetrievalItem) :
    (sortByScoreDesc l).filter (fun a => decide (a.score = s))
      = l.filter (fun a => decide (a.score = s)) := by
  induction l with
  | nil => rfl
  | cons x t ih =>
      simp only [sortByScoreDesc]
      rw [filter_insertDesc]
      simp only [List.filter_cons, ih]

lemma mem_mergeResults {i : RetrievalItem} {v g : List RetrievalItem} :
    i ∈ mergeResults v g ↔ i ∈ v ∨ i ∈ g := by
  unfold mergeResults
  rw [(sortByScoreDesc_perm _).mem_iff, List.mem_append]

lemma convertItem_eq (i : RetrievalItem) : convertItem i = i := rfl

lemma convertItems_eq (l : List RetrievalItem) : convertItems l = l := by
  induction l with
  | nil => rfl
  | cons x t ih => simp [convertItems, convertItem_eq] at *; exact ih

lemma ragEngineSearch_items (st : String) (vec : Except String (List RawHit))
    (graph : Except String (List Neo4jRecord)) :
    (ragEngineSearch st vec graph).items
      = mergeResults
          (if st = "VECTOR_ONLY" then qdrantSearch vec
            else if st = "HYBRID" then qdrantSearch vec else [])
          (if st = "HYBRID" then neo4jGetContext graph else []) := rfl

lemma qdrantSearch_source {i : RetrievalItem} {o : Except String (List RawHit)}
    (h : i ∈ qdrantSearch o) : i.source = "qdrant" := by
  cases o with
  | error e => simp [qdrantSearch] at h
  | ok hits =>
      simp only [qdrantSearch, List.mem_map] at h
      obtain ⟨a, _, rfl⟩ := h
      rfl

lemma neo4jGetContext_source {i : RetrievalItem} {o : Except String (List Neo4jRecord)}
    (h : i ∈ neo4jGetContext o) : i.source = "neo4j" := by
  cases o with
  | error e => simp [neo4jGetContext] at h
  | ok records =>
      simp only [neo4jGetContext, List.mem_map] at h
      obtain ⟨a, _, rfl⟩ := h
      rfl

lemma ragEngineSearch_source {st : String} {vec : Except String (List RawHit)}
    {graph : Except String (List Neo4jRecord)} :
    ∀ i ∈ (ragEngineSearch st vec graph).items,
      i.source = "qdrant" ∨ i.source = "neo4j" := by
  intro i hi
  rw [ragEngineSearch_items, mem_mergeResults] at hi
  rcases hi with h | h
  · split at h
    · exact Or.inl (qdrantSearch_source h)
    · split at h
      · exact Or.inl (qdrantSearch_source h)
      · simp at h
  · split at h
    · exact Or.inr (neo4jGetContext_source h)
    · simp at h

/-! # Claim theorems -/

/-- C4. For every pair of input result sequences, `_merge_results` returns
the concatenation of the vector sequence followed by the graph sequence,
stably sorted by score in non-increasing order: the result is a permutation
of the concatenation, it is pairwise sorted with scores non-increasing, and
for every score value the sub-sequence of items carrying that score is
exactly the one of the concatenation (so ties keep vector-before-graph
order). In particular vector hits scoring 0.9 and 0.6 plus a graph hit
scoring 1.0 merge to graph(1.0), vector(0.9), vector(0.6). -/
theorem merge_results_stable_sort_desc :
    (∀ v g : List RetrievalItem,
        (mergeResults v g).Perm (v ++ g)
      ∧ (mergeResults v g).Pairwise (fun a b => b.score ≤ a.score)
      ∧ (∀ s : ℚ, (mergeResults v g).filter (fun a => decide (a.score = s))
            = (v ++ g).filter (fun a => decide (a.score = s))))
  ∧ mergeResults
      [{ id := "v1", content := "battery lasts long", source := "qdrant",
          score := mkRat 9 10, metadata := [] },
        { id := "v2", content := "battery drains fast", source := "qdrant",
          score := mkRat 6 10, metadata := [] }]
      [{ id := "neo4j_res", content := "battery node", source := "neo4j",
          score := 1, metadata := [] }]
    = [{ id := "neo4j_res", content := "battery node", source := "neo4j",
          score := 1, metadata := [] },
        { id := "v1", content := "battery lasts long", source := "qdrant",
          score := mkRat 9 10, metadata := [] },
        { id := "v2", content := "battery drains fast", source := "qdrant",
          score := mkRat 6 10, metadata := [] }] := by
  refine ⟨fun v g => ⟨sortByScoreDesc_perm _, sortByScoreDesc_pairwise _,
    fun s => sortByScoreDesc_filter s _⟩, by decide⟩

/-- C8. For every retrieval (any strategy, any store outcomes, failures
included), the `RetrievalContext` stored by `query_node` partitions the
merged results by source tag: the multiset union of `vector_results` and
`kg_results` equals the multiset of `merged_results`, every merged item
carries one of the two source tags, and an item belongs to the vector
(resp. graph) list exactly when its tag is "qdrant" (resp. "neo4j"). -/
theorem retrieval_context_partition (st : String)
    (vec : Except String (List RawHit)) (graph : Except String (List Neo4jRecord)) :
    ((queryNodeContext (ragEngineSearch st vec graph)).vector_results
        ++ (queryNodeContext (ragEngineSearch st vec graph)).kg_results).Perm
      (queryNodeContext (ragEngineSearch st vec graph)).merged_results
  ∧ (∀ i ∈ (queryNodeContext (ragEngineSearch st vec graph)).merged_results,
        i.source = "qdrant" ∨ i.source = "neo4j")
  ∧ (∀ i ∈ (queryNodeContext (ragEngineSearch st vec graph)).merged_results,
        (i ∈ (queryNodeContext (ragEngineSearch st vec graph)).vector_results
          ↔ i.source = "qdrant"))
  ∧ (∀ i ∈ (queryNodeContext (ragEngineSearch st vec graph)).merged_results,
        (i ∈ (queryNodeContext (ragEngineSearch st vec graph)).kg_results
          ↔ i.source = "neo4j")) := by
  have hsrc := @ragEngineSearch_source st vec graph
  simp only [queryNodeContext, convertItems_eq]
  refine ⟨?_, hsrc, ?_, ?_⟩
  · have hcongr : (ragEngineSearch st vec graph).items.filter (fun i => i.source == "neo4j")
        = (ragEngineSearch st vec graph).items.filter
            (fun i => !(i.source == "qdrant")) := by
      apply List.filter_congr
      intro i hi
      rcases hsrc i hi with h | h <;> simp [h]
    rw [hcongr]
    exact List.filter_append_perm _ _
  · intro i hi
    rw [List.mem_filter]
    simp [hi]
  · intro i hi
    rw [List.mem_filter]
    simp [hi]

/-- A HYBRID run in which the vector sub-search raises (the adapter catches
the exception and returns no items) while the graph sub-search succeeds
with one record. -/
def hybridVectorFailedRun : RetrievalResponse :=
  ragEngineSearch "HYBRID" (.error "qdrant connection refused")
    (.ok [[("name", "Battery")]])

/-- The same HYBRID run except that the vector sub-search succeeds and
merely finds nothing. -/
def hybridVectorEmptyRun : RetrievalResponse :=
  ragEngineSearch "HYBRID" (.ok []) (.ok [[("name", "Battery")]])

/-- C1 counterexample. At the concrete input where exactly the vector
sub-search fails, the produced response and stored context are IDENTICAL
to those of a run in which the vector search succeeded with zero hits:
`debug_info` is the same count pair (so it cannot name the failed source,
contradicting the claimed debug-info record), and the retrieval confidence
is the same hard-coded 0.8 (so it is not reduced, contradicting the claimed
reduced confidence). -/
theorem hybrid_partial_failure_counterexample :
    hybridVectorFailedRun.debug_info = hybridVectorEmptyRun.debug_info
  ∧ (queryNodeContext hybridVectorFailedRun).retrieval_confidence
      = (queryNodeContext hybridVectorEmptyRun).retrieval_confidence
  ∧ (queryNodeContext hybridVectorFailedRun).retrieval_confidence = mkRat 8 10 := by
  decide

/-- C1 amended. If one HYBRID sub-search fails, the failing store adapter
catches its own exception and contributes an empty list, so `search`
still returns a response whose items are exactly (a permutation of) the
surviving sub-search's results; if both fail the response is empty rather
than an exception. However the stored retrieval confidence stays at the
constant 0.8 and `debug_info` records only the two per-source result
counts — it never names a failed source. -/
theorem hybrid_partial_failure_policy (e e2 : String)
    (recs : List Neo4jRecord) (hits : List RawHit) :
    (ragEngineSearch "HYBRID" (.error e) (.ok recs)).items.Perm
      (neo4jGetContext (.ok recs))
  ∧ (ragEngineSearch "HYBRID" (.ok hits) (.error e)).items.Perm
      (qdrantSearch (.ok hits))
  ∧ (ragEngineSearch "HYBRID" (.error e) (.error e2)).items = []
  ∧ (queryNodeContext (ragEngineSearch "HYBRID" (.error e) (.ok recs))).retrieval_confidence
      = mkRat 8 10
  ∧ (ragEngineSearch "HYBRID" (.error e) (.ok recs)).debug_info
      = { vector_count := 0, graph_count := recs.length } := by
  refine ⟨?_, ?_, rfl, rfl, ?_⟩
  · have : (ragEngineSearch "HYBRID" (.error e) (.ok recs)).items
        = mergeResults [] (neo4jGetContext (.ok recs)) := rfl
    rw [this]
    exact (sortByScoreDesc_perm _).trans (by simp)
  · have : (ragEngineSearch "HYBRID" (.ok hits) (.error e)).items
        = mergeResults (qdrantSearch (.ok hits)) [] := rfl
    rw [this]
    exact (sortByScoreDesc_perm _).trans (by simp)
  · simp [ragEngineSearch, qdrantSearch, neo4jGetContext]

/-- C10. In every patch returned by the Assess stage — the empty-context
path, the parsed-verdict path and the exception path alike — the written
`needs_clarification` value is the negation of the written `is_sufficient`
value. -/
theorem needs_clarification_negates_sufficiency (state : GraphState)
    (llm : Except String SufficiencyOutput) :
    (reasoningNode state llm).1.needs_clarification
      = ((reasoningNode state llm).1.is_sufficient).map (fun b => !b) := by
  unfold reasoningNode
  rcases state.retrieval_context with _ | context
  · rfl
  · simp only
    split
    · rfl
    · cases llm with
      | ok o => simp
      | error e => rfl

/-- C5. Whenever the Assess stage runs on a state whose retrieval context
is absent or whose merged result list is empty, it takes the early return
of `reasoning.py` lines 35-47: the LLM judge is not invoked (the returned
flag is `false`, and the patch does not depend on the judge outcome at
all), and the patch writes `is_sufficient = False`. -/
theorem assess_empty_fail_closed (state : GraphState)
    (llm : Except String SufficiencyOutput)
    (h : state.retrieval_context = none
      ∨ ∃ c, state.retrieval_context = some c ∧ c.merged_results = []) :
    (reasoningNode state llm).2 = false
  ∧ (reasoningNode state llm).1.is_sufficient = some false
  ∧ ∀ llm2, reasoningNode state llm = reasoningNode state llm2 := by
  rcases h with h | ⟨c, hc, hm⟩
  · unfold reasoningNode
    rw [h]
    exact ⟨rfl, rfl, fun _ => rfl⟩
  · unfold reasoningNode
    rw [hc]
    simp [hm]

/-- C5 witness: the initial state has no retrieval context, so at that
concrete input the Assess stage skips the judge and fails closed. -/
theorem assess_empty_fail_closed_witness :
    (reasoningNode (initialState "any question") (.error "unused")).2 = false
  ∧ (reasoningNode (initialState "any question") (.error "unused")).1.is_sufficient
      = some false
  ∧ ∀ llm2, reasoningNode (initialState "any question") (.error "unused")
      = reasoningNode (initialState "any question") llm2 :=
  assess_empty_fail_closed (initialState "any question") (.error "unused")
    (Or.inl rfl)

/-- C6. Whenever the Assess stage's LLM interaction fails — the call raises
or its output cannot be parsed into the structured verdict, both landing in
the `except` branch of `reasoning.py` 106-118 — the returned patch writes
`is_sufficient = False` (hence never `True`) with a single reasoning record
of confidence 0.0. -/
theorem assess_parse_failure_fail_closed (state : GraphState)
    (c : RetrievalContext) (e : String)
    (hc : state.retrieval_context = some c)
    (hne : c.merged_results ≠ []) :
    (reasoningNode state (.error e)).1.is_sufficient = some false
  ∧ (reasoningNode state (.error e)).1.is_sufficient ≠ some true
  ∧ (reasoningNode state (.error e)).1.private_reasoning
      = some [{ step := "Reasoner",
                summary := "Error during evaluation: " ++ e,
                confidence := 0 }] := by
  unfold reasoningNode
  rw [hc]
  simp [List.isEmpty_iff, hne]

/-- A context holding exactly one merged item, for concrete evaluation. -/
def oneItemContext : RetrievalContext :=
  { vector_results := [], kg_results := [],
    merged_results :=
      [{ id := "d1", content := "battery review",
         source := "qdrant", score := 1, metadata := [] }],
    retrieval_confidence := mkRat 8 10 }

/-- A state that has completed retrieval with one merged item. -/
def oneItemState : GraphState :=
  { (initialState "q") with retrieval_context := some oneItemContext }

/-- C6 witness: a concrete state with one merged item and a judge outcome
that failed to parse. -/
theorem assess_parse_failure_fail_closed_witness :
    (reasoningNode oneItemState (.error "Invalid json output")).1.is_sufficient
      = some false
  ∧ (reasoningNode oneItemState (.error "Invalid json output")).1.is_sufficient
      ≠ some true
  ∧ (reasoningNode oneItemState (.error "Invalid json output")).1.private_reasoning
      = some [{ step := "Reasoner",
                summary := "Error during evaluation: " ++ "Invalid json output",
                confidence := 0 }] :=
  assess_parse_failure_fail_closed _ oneItemContext _ rfl (by decide)

/-- A successfully parsed interpreter classification used by the concrete
pipeline runs below. -/
def complaintInterp : InterpreterOutput :=
  { intent_type := "complaint_analysis", intent_confidence := mkRat 9 10,
    emotion_type := "neutral", emotion_confidence := mkRat 8 10,
    reasoning := "clear complaint query" }

/-- Oracle for a run in which both stores succeed but return no items: the
interpreter classifies normally, retrieval finds nothing, the sufficiency
judge is never reached (the Assess stage early-returns), the pipeline
branches to clarification, and the clarification LLM call succeeds. -/
def emptyStoresOracle : PipelineOracle :=
  { interp := .ok complaintInterp,
    vec := .ok [], graph := .ok [], engineFailure := none,
    suff := .error "judge never invoked",
    gen := .error "not reached", genFallback := .error "not reached",
    expl := .error "not reached",
    clar := .ok "Could you share which product you mean?" }

/-- The reasoning record the interpreter stage emits for
`emptyStoresOracle` (it is later lost from the state). -/
def interpRecordExpected : ReasoningRecord :=
  { step := "interpreter",
    summary := "Classified intent as complaint_analysis and emotion as neutral. Reasoning: clear complaint query",
    confidence := mkRat 8 10 }

/-- C2 (code-bug evidence). One concrete full pipeline run in which the
interpreter, query, reasoner and clarification stages each emit a
reasoning record, evaluated to its terminal state: only the LAST stage's
record survives, because `state.py` declares `private_reasoning` WITHOUT
the `operator.add` reducer that `messages` has, so LangGraph treats it as
a last-value channel and every stage's patch replaces the accumulated
trace instead of appending to it. The claimed invariant — the sequence
only grows and earlier records are never dropped — fails at this input:
the Interpreter, Query and Reasoner records are all gone. -/
theorem private_reasoning_trace_overwritten :
    ((runPipeline "What do people say about battery life?" emptyStoresOracle).private_reasoning.map
        (fun r => r.step)) = ["AskClarification"]
  ∧ "interpreter" ∉
      ((runPipeline "What do people say about battery life?" emptyStoresOracle).private_reasoning.map
        (fun r => r.step))
  ∧ "Query" ∉
      ((runPipeline "What do people say about battery life?" emptyStoresOracle).private_reasoning.map
        (fun r => r.step))
  ∧ (interpreterNode emptyStoresOracle.interp).private_reasoning
      = some [interpRecordExpected] := by
  decide

/-- The empty-stores oracle with one clarification message. -/
def clarOracleA : PipelineOracle :=
  { emptyStoresOracle with
      clar := .ok "Please tell me which product you are asking about." }

/-- The empty-stores oracle with a different clarification message. -/
def clarOracleB : PipelineOracle :=
  { emptyStoresOracle with
      clar := .ok "A completely different clarification request." }

/-- C7 (code-bug evidence). A query for which both stores return no items:
the terminal state does have `is_sufficient = false` and
`needs_clarification = true`, but it carries NO clarification message —
`clarification_node` writes its message under the keys
`clarification_message` / `clarification_reason`, which are not declared
fields of `GraphState`, so LangGraph has no channel for them and the
terminal state is IDENTICAL for two runs whose clarification LLM produced
entirely different (non-empty) messages. The caller (`cli.py` reads
`result["clarification_message"]`) can never see a message. -/
theorem clarification_message_absent_from_terminal_state :
    runPipeline "q" clarOracleA = runPipeline "q" clarOracleB
  ∧ (runPipeline "q" clarOracleA).is_sufficient = false
  ∧ (runPipeline "q" clarOracleA).needs_clarification = true
  ∧ (clarificationNode (initialState "q") clarOracleA.clar).clarification_message
      = some "Please tell me which product you are asking about." := by
  decide

lemma minByRequestCount_mem (c : LLMClient) (l : List LLMClient) :
    minByRequestCount c l ∈ c :: l := by
  induction l generalizing c with
  | nil => simp [minByRequestCount]
  | cons d t ih =>
      simp only [minByRequestCount]
      split
      · exact List.mem_cons_of_mem c (ih d)
      · exact List.cons_subset_cons c (List.subset_cons_self d t) (ih c)

lemma lbCandidates_subset (clients : List LLMClient) :
    lbCandidates clients ⊆ clients := by
  unfold lbCandidates
  split
  · exact fun a h => h
  · exact (List.filter_sublist _).subset

lemma mem_lbCandidates_head {l : List LLMClient} (hpos : 0 < (lbCandidates l).length)
    {a : LLMClient} (ha : a ∈ (lbCandidates l).get ⟨0, hpos⟩ :: (lbCandidates l).drop 1) :
    a ∈ lbCandidates l := by
  have h0 : (lbCandidates l).get ⟨0, hpos⟩ :: (lbCandidates l).drop 1 = lbCandidates l := by
    rw [List.get_eq_getElem]
    have := List.getElem_cons_drop (lbCandidates l) 0 hpos
    simpa using this
  rw [h0] at ha
  exact ha

lemma selectClient_mem {strategy : LoadBalanceStrategy} {clients : List LLMClient}
    {rr rnd rr2 : Nat} {c : LLMClient}
    (h : selectClient strategy clients rr rnd = some (c, rr2)) : c ∈ clients := by
  apply lbCandidates_subset clients
  simp only [selectClient] at h
  by_cases hl : (lbCandidates clients).length = 0
  · rw [dif_pos hl] at h
    exact absurd h (by simp)
  · rw [dif_neg hl] at h
    cases strategy <;> simp only [Option.some.injEq, Prod.mk.injEq] at h
    · exact h.1 ▸ List.get_mem _ _ _
    · exact h.1 ▸ mem_lbCandidates_head _ (minByRequestCount_mem _ _)
    · exact h.1 ▸ List.get_mem _ _ _
    · exact h.1 ▸ List.get_mem _ _ _

lemma lbCandidates_ne_nil {clients : List LLMClient} (h : clients ≠ []) :
    ¬ ((lbCandidates clients).length = 0) := by
  unfold lbCandidates
  split
  · intro h0
    exact h (List.length_eq_zero.mp h0)
  case isFalse hne =>
    intro h0
    exact hne (by simp [List.isEmpty_iff, List.length_eq_zero.mp h0])

lemma selectClient_isSome {strategy : LoadBalanceStrategy} {clients : List LLMClient}
    (rr rnd : Nat) (h : clients ≠ []) :
    (selectClient strategy clients rr rnd).isSome := by
  unfold selectClient
  rw [dif_neg (lbCandidates_ne_nil h)]
  cases strategy <;> rfl

/-- C9. For every call to `select_client`, whenever the registry is
non-empty some backend is returned, and the returned backend is a
registered one. In particular when no backend is marked healthy the
fallback of `load_balancer.py` 41-44 makes all registered backends
candidates, so a transient unhealthy flag on every backend never makes
selection return nothing. -/
theorem select_client_never_empty (strategy : LoadBalanceStrategy)
    (clients : List LLMClient) (rr rnd : Nat) (h : clients ≠ []) :
    ∃ c rr2, selectClient strategy clients rr rnd = some (c, rr2) ∧ c ∈ clients := by
  obtain ⟨⟨c, rr2⟩, hc⟩ := Option.isSome_iff_exists.mp (selectClient_isSome rr rnd h)
  exact ⟨c, rr2, hc, selectClient_mem hc⟩

/-- A registry of two backends that are BOTH marked unhealthy. -/
def allUnhealthyRegistry : List LLMClient :=
  [{ name := "ollama", is_healthy := false, request_count := 3, gen := .ok "hi" },
   { name := "gemini", is_healthy := false, request_count := 0, gen := .ok "yo" }]

/-- C9 witness: with every backend unhealthy, selection still returns a
registered backend. -/
theorem select_client_never_empty_witness :
    allUnhealthyRegistry ≠ []
  ∧ (getHealthyClients allUnhealthyRegistry = [])
  ∧ ∃ c rr2, selectClient .round_robin allUnhealthyRegistry 7 0 = some (c, rr2)
      ∧ c ∈ allUnhealthyRegistry :=
  ⟨by decide, by decide,
    select_client_never_empty .round_robin allUnhealthyRegistry 7 0 (by decide)⟩

lemma markUnhealthy_name_gen (clients : List LLMClient) (n : String) :
    (markUnhealthy clients n).map (fun c => (c.name, c.gen))
      = clients.map (fun c => (c.name, c.gen)) := by
  induction clients with
  | nil => rfl
  | cons c t ih =>
      simp only [markUnhealthy, List.map_cons] at *
      rw [ih]
      split <;> rfl

lemma markUnhealthy_names (clients : List LLMClient) (n : String) :
    (markUnhealthy clients n).map (fun c => c.name)
      = clients.map (fun c => c.name) := by
  induction clients with
  | nil => rfl
  | cons c t ih =>
      simp only [markUnhealthy, List.map_cons] at *
      rw [ih]
      split <;> rfl

/-- Transfer a client across a list with the same (name, gen) projection. -/
lemma exists_same_name_gen {l l' : List LLMClient}
    (h : l.map (fun c => (c.name, c.gen)) = l'.map (fun c => (c.name, c.gen)))
    {c : LLMClient} (hc : c ∈ l) :
    ∃ c' ∈ l', c'.name = c.name ∧ c'.gen = c.gen := by
  have hm : (c.name, c.gen) ∈ l'.map (fun c => (c.name, c.gen)) := by
    rw [← h]
    exact List.mem_map_of_mem _ hc
  obtain ⟨c', hc', heq⟩ := List.mem_map.mp hm
  exact ⟨c', hc', congrArg Prod.fst heq, congrArg Prod.snd heq⟩

lemma name_inj_of_nodup {clients : List LLMClient}
    (hn : (clients.map (fun c => c.name)).Nodup)
    {a b : LLMClient} (ha : a ∈ clients) (hb : b ∈ clients)
    (hab : a.name = b.name) : a = b :=
  List.inj_on_of_nodup_map hn ha hb hab

lemma retarget_some {clients : List LLMClient} {tried : List String}
    {c0 c : LLMClient} (hc0 : c0 ∈ clients)
    (h : retarget clients tried c0 = some c) :
    c ∈ clients ∧ c.name ∉ tried := by
  unfold retarget at h
  split at h
  case isTrue hct =>
    refine ⟨List.mem_of_find?_eq_some h, ?_⟩
    have := List.find?_some h
    simp only [Bool.not_eq_true', ← Bool.not_eq_true] at this
    intro hmem
    exact this (by simpa using hmem)
  case isFalse hct =>
    cases h
    refine ⟨hc0, fun hmem => hct (by simpa using hmem)⟩

lemma retarget_none {clients : List LLMClient} {tried : List String}
    {c0 : LLMClient} (h : retarget clients tried c0 = none) :
    ∀ c ∈ clients, c.name ∈ tried := by
  unfold retarget at h
  split at h
  · intro c hc
    have := List.find?_eq_none.mp h c hc
    simpa using this
  · cases h

/-- Main invariant of the `execute` attempt loop: the tried list stays
duplicate-free, stays inside the registered names, grows by at most one
name per unit of fuel, and when the loop ends in exhaustion it either
consumed all its fuel (one failed attempt per unit) or covered every
registered backend — and in either case every backend it recorded had
failed. -/
lemma executeLoop_invariant (strategy : LoadBalanceStrategy) (fuel : Nat) :
    ∀ (clients : List LLMClient) (rr rnd : Nat) (tried : List String),
    (clients.map (fun c => c.name)).Nodup →
    tried.Nodup →
    (∀ n ∈ tried, n ∈ clients.map (fun c => c.name)) →
    (∀ c ∈ clients, c.name ∈ tried → ∃ err, c.gen = .error err) →
    (executeLoop strategy fuel clients rr rnd tried).1.Nodup
    ∧ (∀ n ∈ (executeLoop strategy fuel clients rr rnd tried).1,
        n ∈ clients.map (fun c => c.name))
    ∧ tried.length ≤ (executeLoop strategy fuel clients rr rnd tried).1.length
    ∧ (executeLoop strategy fuel clients rr rnd tried).1.length ≤ tried.length + fuel
    ∧ ((executeLoop strategy fuel clients rr rnd tried).2 = .exhausted →
        ((executeLoop strategy fuel clients rr rnd tried).1.length = tried.length + fuel
          ∨ ∀ n ∈ clients.map (fun c => c.name),
              n ∈ (executeLoop strategy fuel clients rr rnd tried).1)
        ∧ ∀ c ∈ clients, c.name ∈ (executeLoop strategy fuel clients rr rnd tried).1 →
            ∃ err, c.gen = .error err) := by
  induction fuel with
  | zero =>
      intro clients rr rnd tried hn ht hsub hfail
      simp only [executeLoop]
      exact ⟨ht, hsub, le_refl _, by omega, fun _ => ⟨Or.inl (by omega), hfail⟩⟩
  | succ fuel ih =>
      intro clients rr rnd tried hn ht hsub hfail
      rcases hsel : selectClient strategy clients rr rnd with _ | ⟨c0, rr2⟩
      · simp only [executeLoop, hsel]
        exact ⟨ht, hsub, le_refl _, by omega, fun habs => by cases habs⟩
      · have hc0 : c0 ∈ clients := selectClient_mem hsel
        rcases hcand : retarget clients tried c0 with _ | c
        · simp only [executeLoop, hsel, hcand]
          refine ⟨ht, hsub, le_refl _, by omega, fun _ => ⟨Or.inr ?_, hfail⟩⟩
          intro n hnmem
          obtain ⟨c, hc, rfl⟩ := List.mem_map.mp hnmem
          exact retarget_none hcand c hc
        · obtain ⟨hcmem, hcnew⟩ := retarget_some hc0 hcand
          have htried : (tried ++ [c.name]).Nodup := by
            rw [List.nodup_append]
            exact ⟨ht, List.nodup_singleton _, by
              intro a ha hamem
              rw [List.mem_singleton] at hamem
              exact hcnew (hamem ▸ ha)⟩
          have hsub2 : ∀ n ∈ tried ++ [c.name], n ∈ clients.map (fun c => c.name) := by
            intro n hnmem
            rcases List.mem_append.mp hnmem with hn2 | hn2
            · exact hsub n hn2
            · rw [List.mem_singleton] at hn2
              exact hn2 ▸ List.mem_map_of_mem _ hcmem
          have hlen1 : (tried ++ [c.name]).length = tried.length + 1 := by simp
          rcases hgen : c.gen with err | resp
          · simp only [executeLoop, hsel, hcand, hgen]
            have hpairs := markUnhealthy_name_gen clients c.name
            have hnames := markUnhealthy_names clients c.name
            have hfail2 : ∀ c2 ∈ markUnhealthy clients c.name,
                c2.name ∈ tried ++ [c.name] → ∃ e2, c2.gen = .error e2 := by
              intro c2 hc2 hmem
              obtain ⟨c3, hc3, hname3, hgen3⟩ := exists_same_name_gen hpairs hc2
              rcases List.mem_append.mp hmem with hm | hm
              · obtain ⟨e2, he2⟩ := hfail c3 hc3 (hname3 ▸ hm)
                exact ⟨e2, hgen3 ▸ he2⟩
              · rw [List.mem_singleton] at hm
                have hc3c : c3 = c := name_inj_of_nodup hn hc3 hcmem (hname3 ▸ hm)
                exact ⟨err, hgen3 ▸ hc3c ▸ hgen⟩
            obtain ⟨ih1, ih2, ih3, ih4, ih5⟩ :=
              ih (markUnhealthy clients c.name) rr2 (rnd + 1) (tried ++ [c.name])
                (hnames ▸ hn) htried (fun n hmem => hnames ▸ hsub2 n hmem) hfail2
            rw [hlen1] at ih3 ih4
            refine ⟨ih1, fun n hmem => hnames ▸ ih2 n hmem, by omega, by omega, ?_⟩
            intro hexh
            obtain ⟨ih5a, ih5b⟩ := ih5 hexh
            constructor
            · rcases ih5a with hlen | hcov
              · left
                rw [hlen1] at hlen
                omega
              · right
                intro n hnmem
                exact hcov n (hnames ▸ hnmem)
            · intro c2 hc2 hmem
              obtain ⟨c3, hc3, hname3, hgen3⟩ :=
                exists_same_name_gen hpairs.symm hc2
              obtain ⟨e2, he2⟩ := ih5b c3 hc3 (hname3 ▸ hmem)
              exact ⟨e2, hgen3 ▸ he2⟩
          · simp only [executeLoop, hsel, hcand, hgen]
            exact ⟨htried, hsub2, by omega, by omega, fun habs => by cases habs⟩

/-- C3 amended. For every `execute(prompt, retries=r)` call over a registry
of distinctly-named backends: the attempted backends are pairwise distinct
registered backends (no backend is attempted more than once per call), at
most `min(r+1, N)` of them are attempted, and when the call ends in the
all-attempts-failed error, exactly `min(r+1, N)` distinct backends were
attempted and every attempted backend had failed — so the error implies
every registered backend was tried only when `r+1 ≥ N`; for `r+1 < N` it
is raised with untried backends remaining (see the counterexample). -/
theorem execute_attempt_bounds (strategy : LoadBalanceStrategy)
    (clients : List LLMClient) (retries rr rnd : Nat)
    (hn : (clients.map (fun c => c.name)).Nodup) :
    (execute strategy clients retries rr rnd).1.Nodup
  ∧ (∀ n ∈ (execute strategy clients retries rr rnd).1,
      n ∈ clients.map (fun c => c.name))
  ∧ (execute strategy clients retries rr rnd).1.length ≤ min (retries + 1) clients.length
  ∧ ((execute strategy clients retries rr rnd).2 = .exhausted →
      (execute strategy clients retries rr rnd).1.length = min (retries + 1) clients.length
    ∧ ∀ c ∈ clients, c.name ∈ (execute strategy clients retries rr rnd).1 →
        ∃ err, c.gen = .error err) := by
  obtain ⟨h1, h2, h3, h4, h5⟩ :=
    executeLoop_invariant strategy (retries + 1) clients rr rnd []
      hn List.nodup_nil (by simp) (by simp)
  have hU : execute strategy clients retries rr rnd
      = executeLoop strategy (retries + 1) clients rr rnd [] := rfl
  rw [hU]
  simp only [List.length_nil, Nat.zero_add] at h4 h5
  have hlenN : (executeLoop strategy (retries + 1) clients rr rnd []).1.length
      ≤ clients.length := by
    have hle := (List.Nodup.subperm h1 (fun n hm => h2 n hm)).length_le
    rwa [List.length_map] at hle
  refine ⟨h1, h2, by omega, ?_⟩
  intro hexh
  obtain ⟨ha, hb⟩ := h5 hexh
  refine ⟨?_, hb⟩
  rcases ha with hlen | hcov
  · omega
  · have hge := (List.Nodup.subperm hn hcov).length_le
    rw [List.length_map] at hge
    omega

/-- A registry of two healthy, distinctly named backends that BOTH fail. -/
def twoFailingRegistry : List LLMClient :=
  [{ name := "ollama", is_healthy := true, request_count := 0, gen := .error "timeout" },
   { name := "gemini", is_healthy := true, request_count := 0, gen := .error "quota" }]

/-- C3 counterexample. With two registered failing backends and
`retries = 0`, `execute` raises the all-attempts-failed error after trying
only the first backend: "gemini" is registered but never attempted, so the
error is NOT raised "only when every one of the N registered backends has
been tried and failed within that same call". -/
theorem execute_exhausted_before_all_tried :
    (execute .failover twoFailingRegistry 0 0 0).2 = .exhausted
  ∧ (execute .failover twoFailingRegistry 0 0 0).1 = ["ollama"]
  ∧ "gemini" ∈ twoFailingRegistry.map (fun c => c.name)
  ∧ "gemini" ∉ (execute .failover twoFailingRegistry 0 0 0).1 := by
  decide

/-- A registry with a failing first backend and a healthy second one. -/
def failoverRegistry : List LLMClient :=
  [{ name := "ollama", is_healthy := true, request_count := 0, gen := .error "timeout" },
   { name := "gemini", is_healthy := true, request_count := 0, gen := .ok "answer" }]

/-- C3 witness: the attempt bounds instantiated at a concrete two-backend
registry with `retries = 2`. -/
theorem execute_attempt_bounds_witness :
    ((failoverRegistry.map (fun c => c.name)).Nodup)
  ∧ ((execute .failover failoverRegistry 2 0 0).1.Nodup
    ∧ (∀ n ∈ (execute .failover failoverRegistry 2 0 0).1,
        n ∈ failoverRegistry.map (fun c => c.name))
    ∧ (execute .failover failoverRegistry 2 0 0).1.length
        ≤ min (2 + 1) failoverRegistry.length
    ∧ ((execute .failover failoverRegistry 2 0 0).2 = .exhausted →
        (execute .failover failoverRegistry 2 0 0).1.length
          = min (2 + 1) failoverRegistry.length
      ∧ ∀ c ∈ failoverRegistry, c.name ∈ (execute .failover failoverRegistry 2 0 0).1 →
          ∃ err, c.gen = .error err)) :=
  ⟨by decide, execute_attempt_bounds .failover failoverRegistry 2 0 0 (by decide)⟩

end XenRag
